import Mathlib

/-!
Verification development for the brand-traffic-analyzer pipeline
(`src/utils.js`-style module given as `src/unnamed/part_000`, plus the export
layer in `src/src/BrandTrafficAnalyzer.jsx`).

The JavaScript source is shallowly embedded: JS values are modelled by
`JSVal` (numbers idealised as exact rationals `ℚ`), strings by Lean
`String` with list-of-character operations, fallible operations by
`Option`.  Definition names follow the source where Lean allows it.
-/

set_option maxRecDepth 100000

namespace BrandTraffic

/-- Model of a JavaScript value as far as the analysed code observes it:
strings, numbers (idealised as exact rationals; `NaN` is represented by
`Option.none` at the points where it can arise), booleans, `null` and
`undefined`. -/
inductive JSVal where
  | str (s : String)
  | num (q : ℚ)
  | bool (b : Bool)
  | vnull
  | vundef
deriving DecidableEq, Repr

/-- JS truthiness: `''`, `0`, `false`, `null`, `undefined` are falsy. -/
def jsTruthy : JSVal → Bool
  | .str s => !(s == "")
  | .num q => !(q == 0)
  | .bool b => b
  | .vnull => false
  | .vundef => false

/-- `typeof v` (note `typeof null` is the string `"object"`). -/
def typeofV : JSVal → String
  | .str _ => "string"
  | .num _ => "number"
  | .bool _ => "boolean"
  | .vnull => "object"
  | .vundef => "undefined"

/-- JS strict equality `===` on the modelled values (no coercion). -/
def jsStrictEq : JSVal → JSVal → Bool
  | .str a, .str b => a == b
  | .num a, .num b => a == b
  | .bool a, .bool b => a == b
  | .vnull, .vnull => true
  | .vundef, .vundef => true
  | _, _ => false

/-- JS `v || d` (value-returning or). -/
def jsOrVal (v d : JSVal) : JSVal := bif jsTruthy v then v else d

/-! ### String helpers (JS string methods, via `List Char`) -/

/-- `s.toLowerCase()` (ASCII, matching Lean's `Char.toLower`). -/
def sToLower (s : String) : String := String.mk (s.toList.map Char.toLower)

def isWsChar (c : Char) : Bool := c = ' ' || c = '\t' || c = '\n' || c = '\r'

/-- `s.trim()` (leading and trailing whitespace removed). -/
def sTrim (s : String) : String :=
  String.mk ((((s.toList.dropWhile isWsChar).reverse).dropWhile isWsChar).reverse)

/-- `s.split(c)` for a one-character separator, JS semantics
(`''.split(',') = ['']`). -/
def splitCharL (sep : Char) : List Char → List (List Char)
  | [] => [[]]
  | c :: cs =>
    if c = sep then [] :: splitCharL sep cs
    else match splitCharL sep cs with
      | [] => [[c]]
      | g :: gs => (c :: g) :: gs

def sSplitComma (s : String) : List String := (splitCharL ',' s.toList).map String.mk

/-- Contiguous-sublist test (`sub` occurs inside `l`). -/
def infixOf (sub : List Char) : List Char → Bool
  | [] => sub.isEmpty
  | c :: cs => sub.isPrefixOf (c :: cs) || infixOf sub cs

/-- JS `hay.includes(sub)`. -/
def sIncludes (hay sub : String) : Bool := infixOf sub.toList hay.toList

/-- Remove the first occurrence of `pat` (JS `s.replace(pat, '')` with a
string pattern replaces only the first occurrence). -/
def removeFirstL (pat : List Char) : List Char → List Char
  | [] => []
  | c :: cs =>
    if pat.isPrefixOf (c :: cs) then (c :: cs).drop pat.length
    else c :: removeFirstL pat cs

def sRemoveFirst (pat s : String) : String := String.mk (removeFirstL pat.toList s.toList)

/-- JS `s.charAt(0).toUpperCase() + s.slice(1)`. -/
def capitalizeJs (s : String) : String :=
  match s.toList with
  | [] => ""
  | c :: cs => String.mk (c.toUpper :: cs)

def joinSlash (parts : List String) : String :=
  match parts with
  | [] => ""
  | p :: ps => ps.foldl (fun acc q => acc ++ "/" ++ q) p

/-! ### JS number coercion (`Number(...)`, `String(...)`) -/

def digitVal (c : Char) : Option Nat :=
  if c.isDigit then some (c.toNat - 48) else none

def readDigits : List Char → List Nat × List Char
  | [] => ([], [])
  | c :: cs =>
    match digitVal c with
    | some d => let (ds, r) := readDigits cs; (d :: ds, r)
    | none => ([], c :: cs)

def natOfDigits (ds : List Nat) : Nat := ds.foldl (fun a d => a * 10 + d) 0

/-- Optional sign; returns (isNegative, rest). -/
def readSign : List Char → Bool × List Char
  | '+' :: cs => (false, cs)
  | '-' :: cs => (true, cs)
  | cs => (false, cs)

/-- Optional trailing exponent part; `none` models `NaN` (trailing junk). -/
def readExpPart : List Char → Option Int
  | [] => some 0
  | c :: cs =>
    if c = 'e' || c = 'E' then
      let (neg, cs') := readSign cs
      let (ds, r) := readDigits cs'
      if ds.isEmpty || !r.isEmpty then none
      else some (if neg then -(natOfDigits ds : Int) else (natOfDigits ds : Int))
    else none

/-- JS `Number(s)` on a string: whitespace-trimmed, `''` is `0`, signed
decimal with optional fraction and exponent; anything else is `NaN`
(`none`).  (Hexadecimal and `Infinity` literals are not modelled; no input
considered in the theorems uses them.) -/
def jsNumberOfStr (s : String) : Option ℚ :=
  let t := sTrim s
  if t == "" then some 0
  else
    let (neg, cs0) := readSign t.toList
    let (ds1, r1) := readDigits cs0
    let (ds2, r2) :=
      match r1 with
      | '.' :: rs => readDigits rs
      | _ => ([], r1)
    if ds1.isEmpty && ds2.isEmpty then none
    else
      match readExpPart r2 with
      | none => none
      | some e =>
        let mant : ℚ := (natOfDigits ds1 : ℚ) + (natOfDigits ds2 : ℚ) / (10 ^ ds2.length)
        let v := mant * (10 : ℚ) ^ e
        some (if neg then -v else v)

/-- Decimal digits of a rational in `[0,1)`, most significant first
(fuel-bounded; exact whenever the expansion terminates, which holds for
every value the theorems evaluate). -/
def fracDigitsQ : Nat → ℚ → List Char
  | 0, _ => []
  | n + 1, q =>
    if q = 0 then []
    else
      let d : Nat := (Rat.floor (q * 10)).toNat
      Char.ofNat (48 + d) :: fracDigitsQ n (q * 10 - (d : ℚ))

def decStrNN (q : ℚ) : String :=
  let ip := (Rat.floor q).toNat
  let fr := q - (Rat.floor q : ℚ)
  if fr = 0 then Nat.repr ip
  else Nat.repr ip ++ "." ++ String.mk (fracDigitsQ 40 fr)

/-- JS `String(n)` for a (finite) number, idealised to the exact decimal
expansion. -/
def decStr (q : ℚ) : String :=
  if q < 0 then "-" ++ decStrNN (-q) else decStrNN q

/-- JS `String(v)`. -/
def jsToString : JSVal → String
  | .str s => s
  | .num q => decStr q
  | .bool b => bif b then "true" else "false"
  | .vnull => "null"
  | .vundef => "undefined"

/-- JS `Number(v)`; `none` models `NaN`. -/
def jsNumber : JSVal → Option ℚ
  | .str s => jsNumberOfStr s
  | .num q => some q
  | .bool b => some (bif b then 1 else 0)
  | .vnull => some 0
  | .vundef => none

/-- `x || 0` applied to a coerced number: `NaN` (and `0` itself) become `0`. -/
def orZero : Option ℚ → ℚ
  | none => 0
  | some q => q

/-! ### `inferContentType` (content-type classifier) -/

/-- The ordered rule table of `inferContentType` (patterns, label). -/
def contentRules : List (List String × String) :=
  [ (["/blog", "/article", "/news"], "Blog"),
    (["/product", "/pricing", "/shop"], "Product"),
    (["/support", "/help", "/faq"], "Support"),
    (["/about", "/company", "/team"], "About"),
    (["/login", "/signin", "/account"], "Auth"),
    (["/", ""], "Homepage") ]

/-- `inferContentType(url)`: `'Unknown'` for a falsy url, otherwise the label
of the first rule one of whose patterns occurs in the lower-cased url,
`'Other'` if none matches.  (The source memoizes results in a `Map`; the
cache never changes the value of this pure function and is not modelled.) -/
def inferContentType (url : String) : String :=
  bif url == "" then "Unknown"
  else
    let n := sToLower url
    match contentRules.find? (fun ct => ct.1.any (fun p => sIncludes n p)) with
    | some ct => ct.2
    | none => "Other"

/-! ### Bounded regex evaluation (`safeRegexTest`)

The JS `RegExp` engine itself is not part of the repository.
Modelled from the spec: a classic backtracking matcher ("catastrophic-
backtracking patterns", §4.1/§9 of the spec) is embedded as a small
instruction machine with an explicit depth-first thread stack; `fuelE`
counts engine steps, and `none` means the engine has not finished within
`fuelE` steps (i.e. it is still running). -/

inductive Instr where
  | ichar (c : Char)
  | split (a b : Nat)
  | assertEnd
  | matchOk
deriving DecidableEq, Repr

/-- One backtracking engine: threads are `(pc, remaining input)`, explored
depth-first exactly as a backtracking matcher does (first branch of a
`split` first).  Returns `none` when `fuel` runs out. -/
def vmSteps (prog : List Instr) : Nat → List (Nat × List Char) → Option Bool
  | 0, _ => none
  | _ + 1, [] => some false
  | fuel + 1, (pc, s) :: rest =>
    match prog.get? pc with
    | some (.ichar c) =>
      match s with
      | c' :: s' =>
        if c' = c then vmSteps prog fuel ((pc + 1, s') :: rest)
        else vmSteps prog fuel rest
      | [] => vmSteps prog fuel rest
    | some (.split a b) => vmSteps prog fuel ((a, s) :: (b, s) :: rest)
    | some .assertEnd =>
      if s.isEmpty then vmSteps prog fuel ((pc + 1, s) :: rest)
      else vmSteps prog fuel rest
    | some .matchOk => some true
    | none => vmSteps prog fuel rest

/-- `regex.test(s)` (unanchored): try a match starting at every position. -/
def vmTest (fuelE : Nat) (prog : List Instr) (s : List Char) : Option Bool :=
  vmSteps prog fuelE (s.tails.map (fun t => (0, t)))

/-- The compiled form of the custom pattern `(a+)+$`:
`0: char 'a'; 1: split 0 2` (inner `+`, greedy), `2: split 0 3` (outer `+`,
greedy), `3: $`, `4: match`. -/
def aPlusPlusEndProg : List Instr :=
  [.ichar 'a', .split 0 2, .split 0 3, .assertEnd, .matchOk]

/-- `str.substring(i, min(i+100, len))` slices, in order. -/
def chunksGo (fuel : Nat) (l : List Char) : List (List Char) :=
  match fuel, l with
  | 0, _ => []
  | _, [] => []
  | f + 1, l => l.take 100 :: chunksGo f (l.drop 100)

def chunks100 (l : List Char) : List (List Char) := chunksGo l.length l

/-- Outcome of one `safeRegexTest` run: still running after the engine-fuel
budget (`rHung`), aborted by the step-counter `throw` (`rThrew`), or a
value. -/
inductive RegexOut where
  | rHung
  | rThrew
  | rValue (b : Bool)
deriving DecidableEq, Repr

/-- Outcome of the chunk loop: engine still running inside a chunk test,
the step-counter `throw`, or all chunks done (with the final counter). -/
inductive ChunkOut where
  | cHung
  | cThrew
  | cDone (steps : Nat)
deriving DecidableEq, Repr

/-- The chunk loop of `safeRegexTest`: test each 100-character chunk
(result discarded), increment `steps`, `throw` once `steps > 1000`. -/
def chunkPhase (fuelE : Nat) (prog : List Instr) : List (List Char) → Nat → ChunkOut
  | [], steps => .cDone steps
  | c :: cs, steps =>
    match vmTest fuelE prog c with
    | none => .cHung
    | some _ =>
      let steps' := steps + 1
      if steps' > 1000 then .cThrew
      else chunkPhase fuelE prog cs steps'

/-- `safeRegexTest(regex, str)`: run the chunk loop with the shared step
counter, then (only if no abort) the final test on the whole string. -/
def safeRegexTest (fuelE : Nat) (prog : List Instr) (s : List Char) : RegexOut :=
  match chunkPhase fuelE prog (chunks100 s) 0 with
  | .cHung => .rHung
  | .cThrew => .rThrew
  | .cDone _ =>
    match vmTest fuelE prog s with
    | none => .rHung
    | some b => .rValue b

/-! ### `isBranded` and configuration -/

/-- The per-run classification config destructured at the top of
`processCsvResults`. -/
structure Config where
  brandTerms : String
  useCustomRegex : Bool
  customRegex : String
  caseSensitive : Bool
  detectLanguageCodes : Bool
deriving DecidableEq, Repr

/-- `isBranded(query)`.  `compile` models the `new RegExp` constructor
(external to the repository): `none` is a compile-time exception, which the
source's `catch` turns into `false`.  A `none` result models a query on
which the engine is still running after `fuelE` steps. -/
def isBranded (compile : String → Option (List Instr)) (fuelE : Nat)
    (cfg : Config) (query : String) : Option Bool :=
  if query == "" then some false
  else
    let terms := (sSplitComma (sToLower cfg.brandTerms)).map sTrim
    let queryLower := bif cfg.caseSensitive then query else sToLower query
    bif cfg.useCustomRegex && !(cfg.customRegex == "") then
      match compile cfg.customRegex with
      | none => some false
      | some prog =>
        match safeRegexTest fuelE prog query.toList with
        | .rHung => none
        | .rThrew => some false
        | .rValue b => some b
    else some (terms.any fun t => !(t == "") && sIncludes queryLower t)

/-! ### `detectLanguageOrPath` and URL resolution -/

/-- The `languageCodes` set of `processCsvResults`. -/
def languageCodesList : List String :=
  [ "en", "es", "es-es", "de", "fr", "pt", "ru", "it", "pl", "zh", "zh-hant",
    "zh-hans", "ja", "uk", "id", "lv", "ar", "bg", "ca", "cs", "da", "el",
    "fi", "he", "hi", "hr", "hu", "ko", "lt", "nl", "no", "ro", "sk", "sl",
    "sr", "sv", "th", "tr", "vi" ]

structure LangPath where
  lang : String
  path : String
  primaryPath : String
deriving DecidableEq, Repr

/-- `detectLanguageOrPath(pathname, languageCodes)`: split on `/`, drop
empty segments; the first segment whose lower-casing is a known code is
taken (verbatim) as `lang`, every other segment goes to the path. -/
def detectLanguageOrPath (pathname : String) (codes : List String) : LangPath :=
  let segments := ((splitCharL '/' pathname.toList).map String.mk).filter (fun s => !(s == ""))
  let st := segments.foldl
    (fun (st : String × List String) seg =>
      bif codes.contains (sToLower seg) && (st.1 == "unknown") then (seg, st.2)
      else (st.1, st.2 ++ [seg]))
    ("unknown", [])
  { lang := st.1,
    path := bif st.2.isEmpty then "/homepage" else "/" ++ joinSlash st.2,
    primaryPath := bif st.2.isEmpty then "/homepage" else "/" ++ st.2.headD "" }

/-- `new URL(page.startsWith('http') ? page : 'https://' + page).pathname`,
modelled for scheme-and-host URLs: `none` is the constructor throwing.
(Host case-folding, ports, query strings and fragments are not modelled;
no input considered in the theorems uses them.) -/
def urlPathname (page : String) : Option String :=
  let full := bif ("http".toList).isPrefixOf page.toList then page else "https://" ++ page
  let rest :=
    if ("https://".toList).isPrefixOf full.toList then some (full.toList.drop 8)
    else if ("http://".toList).isPrefixOf full.toList then some (full.toList.drop 7)
    else none
  match rest with
  | none => none
  | some r =>
    let host := r.takeWhile (fun c => c ≠ '/')
    let after := r.dropWhile (fun c => c ≠ '/')
    if host.isEmpty then none
    else some (bif after.isEmpty then "/" else String.mk after)

/-! ### Numeric coercions of a row (processCsvResults lines 203–206) -/

/-- `Number(row.clicks) || 0`. -/
def coerceClicks (v : JSVal) : ℚ := orZero (jsNumber v)

/-- `Number(String(row.impressions || '0').replace(/,/g, '')) || 0`. -/
def coerceImpressions (v : JSVal) : ℚ :=
  orZero (jsNumberOfStr (String.mk ((jsToString (jsOrVal v (.str "0"))).toList.filter (fun c => c ≠ ','))))

/-- `Number(String(row.ctr || '0').replace('%', '')) / 100 || 0`. -/
def coerceCtr (v : JSVal) : ℚ :=
  orZero ((jsNumberOfStr (sRemoveFirst "%" (jsToString (jsOrVal v (.str "0"))))).map (fun q => q / 100))

/-- `Number(row.position) || 0`. -/
def coercePosition (v : JSVal) : ℚ := orZero (jsNumber v)

/-! ### The aggregation pass (`processCsvResults`)

A normalized row.  The source lower-cases all keys up front; on this record
model that normalization is the identity, and `query`/`page` are the string
fields the pass reads (all rows the theorems consider carry strings there,
as PapaParse produces for those columns). -/

structure Row where
  query : String
  page : String
  clicks : JSVal
  impressions : JSVal
  ctr : JSVal
  position : JSVal
deriving DecidableEq, Repr

structure Metrics where
  clicks : ℚ
  impressions : ℚ
  ctr : ℚ
  avgPosition : ℚ
deriving DecidableEq, Repr

/-- A retained sample record (`target.samples` entry): url entries are
`(url, contentType, language)`. -/
structure Sample where
  query : String
  clicks : ℚ
  impressions : ℚ
  ctr : ℚ
  avgPosition : ℚ
  contentTypes : List String
  urls : List (String × String × Option String)
deriving DecidableEq, Repr

structure Bucket where
  samples : List Sample
  metrics : Metrics
deriving DecidableEq, Repr

structure Summary where
  totalRows : Nat
  brandedRows : Nat
  nonBrandedRows : Nat
  brandedPercentage : ℚ
  nonBrandedPercentage : ℚ
deriving DecidableEq, Repr

structure PathRec where
  total : Nat
  branded : Nat
  nonBranded : Nat
  sortableTotal : Nat
deriving DecidableEq, Repr

structure LangRec where
  language : String
  code : String
  total : Nat
  clicks : ℚ
  branded : Nat
  nonBranded : Nat
  sortableTotal : Nat
deriving DecidableEq, Repr

/-- JS objects keyed by strings preserve insertion order; they are modelled
as association lists where an update keeps the position of an existing key
and a new key is appended. -/
def setAssoc {α : Type} (l : List (String × α)) (k : String) (v : α) : List (String × α) :=
  match l with
  | [] => [(k, v)]
  | (k', v') :: t => if k' == k then (k', v) :: t else (k', v') :: setAssoc t k v

def lookupD {α : Type} (l : List (String × α)) (k : String) (d : α) : α :=
  match l with
  | [] => d
  | (k', v') :: t => if k' == k then v' else lookupD t k d

/-- The mutable accumulator `acc` of the pass (fields that are computed
afterwards, such as percentages and bucket ctr, live in `finish`). -/
structure Acc where
  branded : Bucket
  nonBranded : Bucket
  totalRows : Nat
  brandedRows : Nat
  nonBrandedRows : Nat
  pathData : List (String × PathRec)
  languageData : List (String × LangRec)
  pathUrlExamples : List (String × List String)
  pathUrlCounts : List (String × Nat)
  duplicates : List (Row × Nat)
deriving DecidableEq, Repr

def emptyBucket : Bucket := { samples := [], metrics := ⟨0, 0, 0, 0⟩ }

def initAcc : Acc :=
  { branded := emptyBucket, nonBranded := emptyBucket,
    totalRows := 0, brandedRows := 0, nonBrandedRows := 0,
    pathData := [], languageData := [], pathUrlExamples := [],
    pathUrlCounts := [], duplicates := [] }

/-- The sample record pushed while a bucket has fewer than 10 samples. -/
def mkSample (cfg : Config) (r : Row) (clicks impressions ctr position : ℚ) : Sample :=
  { query := r.query, clicks := clicks, impressions := impressions, ctr := ctr,
    avgPosition := position,
    contentTypes := [inferContentType r.page],
    urls := [(r.page, inferContentType r.page,
              bif cfg.detectLanguageCodes then some "en" else none)] }

/-- The `try { new URL ... } catch { '/invalid' }` block: resolve the page to
`(lang, path, primaryPath)`. -/
def resolvePage (cfg : Config) (page : String) : String × String × String :=
  match urlPathname page with
  | some pn =>
    let lp := detectLanguageOrPath pn languageCodesList
    ((bif cfg.detectLanguageCodes then lp.lang else "unknown"), lp.path, lp.primaryPath)
  | none => ("unknown", "/invalid", "/invalid")

/-- The duplicate predicate of
`normalizedData.find((r, i) => i < index && r.query === row.query && r.page === row.page)`. -/
def dupPred (all : List Row) (r : Row) (j : Nat) : Bool :=
  match all.get? j with
  | some r' => r'.query == r.query && r'.page == r.page
  | none => false

/-- The body of the `forEach` for one non-skipped row `r` at index `i`,
already classified as `isBrand`. -/
def stepRow (cfg : Config) (all : List Row) (i : Nat) (r : Row) (isBrand : Bool)
    (acc : Acc) : Acc :=
  let totalRows' := acc.totalRows + 1
  let clicks := coerceClicks r.clicks
  let impressions := coerceImpressions r.impressions
  let ctr := coerceCtr r.ctr
  let position := coercePosition r.position
  let updBucket : Bucket → Bucket := fun b =>
    let m := b.metrics
    let m' : Metrics :=
      { clicks := m.clicks + clicks,
        impressions := m.impressions + impressions,
        ctr := m.ctr,
        avgPosition := (m.avgPosition * ((totalRows' : ℚ) - 1) + position) / (totalRows' : ℚ) }
    { samples :=
        if b.samples.length < 10 then b.samples ++ [mkSample cfg r clicks impressions ctr position]
        else b.samples,
      metrics := m' }
  let lpp := resolvePage cfg r.page
  let lang := lpp.1
  let primaryPath := lpp.2.2
  let pd0 := lookupD acc.pathData primaryPath ⟨0, 0, 0, 0⟩
  let pd1 : PathRec :=
    { total := pd0.total + 1,
      branded := bif isBrand then pd0.branded + 1 else pd0.branded,
      nonBranded := bif isBrand then pd0.nonBranded else pd0.nonBranded + 1,
      sortableTotal := pd0.total + 1 }
  let ld0 := lookupD acc.languageData lang
    { language := capitalizeJs lang, code := lang, total := 0, clicks := 0,
      branded := 0, nonBranded := 0, sortableTotal := 0 }
  let ld1 : LangRec :=
    { ld0 with
      total := ld0.total + 1,
      clicks := ld0.clicks + clicks,
      branded := bif isBrand then ld0.branded + 1 else ld0.branded,
      nonBranded := bif isBrand then ld0.nonBranded else ld0.nonBranded + 1,
      sortableTotal := ld0.total + 1 }
  { branded := bif isBrand then updBucket acc.branded else acc.branded,
    nonBranded := bif isBrand then acc.nonBranded else updBucket acc.nonBranded,
    totalRows := totalRows',
    brandedRows := bif isBrand then acc.brandedRows + 1 else acc.brandedRows,
    nonBrandedRows := bif isBrand then acc.nonBrandedRows else acc.nonBrandedRows + 1,
    pathData := setAssoc acc.pathData primaryPath pd1,
    languageData :=
      bif cfg.detectLanguageCodes then setAssoc acc.languageData lang ld1
      else acc.languageData,
    pathUrlExamples :=
      setAssoc acc.pathUrlExamples primaryPath
        ((lookupD acc.pathUrlExamples primaryPath [] ++ [r.page]).take 10),
    pathUrlCounts :=
      setAssoc acc.pathUrlCounts primaryPath (lookupD acc.pathUrlCounts primaryPath 0 + 1),
    duplicates :=
      acc.duplicates ++
        (match (List.range i).find? (dupPred all r) with
         | some j => [(r, j)]
         | none => []) }

/-- The indexed `forEach` over the normalized rows.  `all` is the full row
list (the duplicate scan reads it); `none` propagates an `isBranded`
evaluation that is still running. -/
def aggLoop (compile : String → Option (List Instr)) (fuelE : Nat) (cfg : Config)
    (all : List Row) : List Row → Nat → Acc → Option Acc
  | [], _, acc => some acc
  | r :: rs, i, acc =>
    bif (r.query == "") || (r.page == "") then
      aggLoop compile fuelE cfg all rs (i + 1) acc
    else
      match isBranded compile fuelE cfg r.query with
      | none => none
      | some b => aggLoop compile fuelE cfg all rs (i + 1) (stepRow cfg all i r b acc)

structure PathOut where
  name : String
  total : Nat
  branded : ℚ
  nonBranded : ℚ
  sortableTotal : Nat
deriving DecidableEq, Repr

structure LangOut where
  language : String
  code : String
  total : Nat
  clicks : ℚ
  branded : ℚ
  nonBranded : ℚ
  sortableTotal : Nat
deriving DecidableEq, Repr

structure Result where
  data : List Row
  branded : Bucket
  nonBranded : Bucket
  summary : Summary
  pathData : List PathOut
  languageData : List LangOut
  pathUrlExamples : List (String × List String)
  pathUrlCounts : List (String × Nat)
  borderline : List Sample
  duplicates : List (Row × Nat)
  sampleRows : List Row
deriving DecidableEq, Repr

/-- The post-pass computations (percentages, bucket ctr) and the final
`result` object. -/
def finish (rows : List Row) (acc : Acc) : Result :=
  let brandedCtr :=
    if 0 < acc.branded.metrics.impressions
    then acc.branded.metrics.clicks / acc.branded.metrics.impressions else 0
  let nonBrandedCtr :=
    if 0 < acc.nonBranded.metrics.impressions
    then acc.nonBranded.metrics.clicks / acc.nonBranded.metrics.impressions else 0
  { data := rows,
    branded := { acc.branded with metrics := { acc.branded.metrics with ctr := brandedCtr } },
    nonBranded := { acc.nonBranded with metrics := { acc.nonBranded.metrics with ctr := nonBrandedCtr } },
    summary :=
      { totalRows := acc.totalRows, brandedRows := acc.brandedRows,
        nonBrandedRows := acc.nonBrandedRows,
        brandedPercentage :=
          if acc.totalRows = 0 then 0 else (acc.brandedRows : ℚ) / (acc.totalRows : ℚ) * 100,
        nonBrandedPercentage :=
          if acc.totalRows = 0 then 0 else (acc.nonBrandedRows : ℚ) / (acc.totalRows : ℚ) * 100 },
    pathData := acc.pathData.map (fun kv =>
      { name := kv.1, total := kv.2.total,
        branded := if kv.2.total = 0 then 0 else (kv.2.branded : ℚ) / (kv.2.total : ℚ) * 100,
        nonBranded := if kv.2.total = 0 then 0 else (kv.2.nonBranded : ℚ) / (kv.2.total : ℚ) * 100,
        sortableTotal := kv.2.sortableTotal }),
    languageData := acc.languageData.map (fun kv =>
      { language := kv.2.language, code := kv.2.code, total := kv.2.total,
        clicks := kv.2.clicks,
        branded := if kv.2.total = 0 then 0 else (kv.2.branded : ℚ) / (kv.2.total : ℚ) * 100,
        nonBranded := if kv.2.total = 0 then 0 else (kv.2.nonBranded : ℚ) / (kv.2.total : ℚ) * 100,
        sortableTotal := kv.2.sortableTotal }),
    pathUrlExamples := acc.pathUrlExamples,
    pathUrlCounts := acc.pathUrlCounts,
    borderline := [],
    duplicates := acc.duplicates,
    sampleRows := rows.take 50 }

/-- `processCsvResults(data, config)`.  The key-normalization map is the
identity on the record model; `none` means the pass has not finished within
the modelled engine budget. -/
def processCsvResults (compile : String → Option (List Instr)) (fuelE : Nat)
    (cfg : Config) (rows : List Row) : Option Result :=
  (aggLoop compile fuelE cfg rows rows 0 initAcc).map (finish rows)

/-! ### `analyzeDataQuality` -/

/-- `!row[field] && row[field] !== 0`: falsy and not numeric zero. -/
def isMissing (v : JSVal) : Bool := !(jsTruthy v) && !(jsStrictEq v (.num 0))

/-- Warnings are recorded as `(type, severity, count)`. -/
structure Quality where
  healthScore : ℚ
  missingValues : List (String × Nat)
  warnings : List (String × String × Nat)
deriving DecidableEq, Repr

/-- `analyzeDataQuality(data)`: completeness over the six fixed fields,
clamped to `[0, 95]`.  (The 3-sigma outlier scan uses `Math.sqrt` and is not
embedded; no claim considered here depends on it, and `healthScore` is a
function of the missing-value counts alone.) -/
def analyzeDataQuality (data : List Row) : Quality :=
  let totalRows := data.length
  let mq := (data.filter (fun r => isMissing (.str r.query))).length
  let mp := (data.filter (fun r => isMissing (.str r.page))).length
  let mc := (data.filter (fun r => isMissing r.clicks)).length
  let mi := (data.filter (fun r => isMissing r.impressions)).length
  let mct := (data.filter (fun r => isMissing r.ctr)).length
  let mpos := (data.filter (fun r => isMissing r.position)).length
  let totalMissing := mq + mp + mc + mi + mct + mpos
  let completeness : ℚ :=
    if 0 < totalRows
    then (1 - (totalMissing : ℚ) / ((totalRows : ℚ) * 6)) * 100
    else 0
  { healthScore := max 0 (min 95 completeness),
    missingValues :=
      [("query", mq), ("page", mp), ("clicks", mc), ("impressions", mi),
       ("ctr", mct), ("position", mpos)],
    warnings :=
      if 0 < totalMissing then [("MissingData", "medium", totalMissing)] else [] }

/-! ### Export sanitizers and the CSV export row format -/

/-- The five entity replacements of `sanitize`, applied in source order
(`&` first, then `<`, `>`, `"`, `'`). -/
def replAllChar (c : Char) (rep : List Char) : List Char → List Char
  | [] => []
  | x :: xs => if x = c then rep ++ replAllChar c rep xs else x :: replAllChar c rep xs

def escape5 (s : String) : String :=
  String.mk
    (replAllChar '\'' "&#39;".toList
      (replAllChar '"' "&quot;".toList
        (replAllChar '>' "&gt;".toList
          (replAllChar '<' "&lt;".toList
            (replAllChar '&' "&amp;".toList s.toList)))))

/-- `sanitize(content)`: note the first guard compares the *string*
`typeof content` to the *value* `undefined` with `===`, which never holds. -/
def sanitize (v : JSVal) : String :=
  if jsStrictEq (.str (typeofV v)) .vundef || jsStrictEq v .vnull then ""
  else if !(typeofV v == "string") then jsToString v
  else escape5 (jsToString v)

/-- `sanitizeCSVCell(content)`: non-strings pass through; strings starting
with `=`, `+`, `-` or `@` get a leading apostrophe. -/
def sanitizeCSVCell (v : JSVal) : JSVal :=
  match v with
  | .str s =>
    match s.toList with
    | c :: _ =>
      if c = '=' || c = '+' || c = '-' || c = '@' then .str ("'" ++ s)
      else .str s
    | [] => .str s
  | v => v

/-- The per-row field formatting of every export function:
`fields.map((field) => `"${field}"`).join(',')`. -/
def formatCsvRow (fields : List String) : String :=
  joinComma (fields.map (fun f => "\"" ++ f ++ "\""))
where
  joinComma : List String → String
    | [] => ""
    | p :: ps => ps.foldl (fun acc q => acc ++ "," ++ q) p

/-- One data row of `exportUrlData`'s CSV. -/
def exportUrlRow (p : PathOut) : String :=
  formatCsvRow
    [ p.name, Nat.repr p.sortableTotal, decStr p.branded, decStr p.nonBranded,
      (let ct := inferContentType p.name; bif ct == "" then "Unknown" else ct) ]

/-! ### Claim-side models (written from the spec's words, for the
refinement-style claims) and concrete fixtures -/

/-- The content-type classifier as the spec/claim states it: the five
substring rule groups in priority order, `Homepage` for a url that is `/`
or empty, `Other` for a non-empty url matching no rule, `Unknown` for an
empty url. -/
def claimContentType (url : String) : String :=
  bif url == "" then "Unknown"
  else
    let n := sToLower url
    bif sIncludes n "/blog" || sIncludes n "/article" || sIncludes n "/news" then "Blog"
    else bif sIncludes n "/product" || sIncludes n "/pricing" || sIncludes n "/shop" then "Product"
    else bif sIncludes n "/support" || sIncludes n "/help" || sIncludes n "/faq" then "Support"
    else bif sIncludes n "/about" || sIncludes n "/company" || sIncludes n "/team" then "About"
    else bif sIncludes n "/login" || sIncludes n "/signin" || sIncludes n "/account" then "Auth"
    else bif sIncludes n "/" || n == "" then "Homepage"
    else "Other"

/-- The amended classifier: identical, except that the `Homepage` rule's
empty-string pattern matches every url, so a non-empty url that matches no
earlier rule is always `Homepage` and `Other` is unreachable. -/
def claimContentTypeAmended (url : String) : String :=
  bif url == "" then "Unknown"
  else
    let n := sToLower url
    bif sIncludes n "/blog" || sIncludes n "/article" || sIncludes n "/news" then "Blog"
    else bif sIncludes n "/product" || sIncludes n "/pricing" || sIncludes n "/shop" then "Product"
    else bif sIncludes n "/support" || sIncludes n "/help" || sIncludes n "/faq" then "Support"
    else bif sIncludes n "/about" || sIncludes n "/company" || sIncludes n "/team" then "About"
    else bif sIncludes n "/login" || sIncludes n "/signin" || sIncludes n "/account" then "Auth"
    else "Homepage"

/-- Term-mode matching as the claim states it: split on commas, trim, and
lower-case *both* the terms and the query unless `caseSensitive` (so with
`caseSensitive` both sides keep their original case); match if some
non-empty term is a substring of the query. -/
def claimTermMatch (cfg : Config) (q : String) : Bool :=
  bif cfg.caseSensitive then
    ((sSplitComma cfg.brandTerms).map sTrim).any (fun t => !(t == "") && sIncludes q t)
  else
    ((sSplitComma (sToLower cfg.brandTerms)).map sTrim).any
      (fun t => !(t == "") && sIncludes (sToLower q) t)

/-- The amended term-mode matching: the brand-terms string is always
lower-cased (before splitting); only the query keeps its original case when
`caseSensitive` is set. -/
def claimTermMatchAmended (cfg : Config) (q : String) : Bool :=
  ((sSplitComma (sToLower cfg.brandTerms)).map sTrim).any
    (fun t => !(t == "") && sIncludes (bif cfg.caseSensitive then q else sToLower q) t)

/-- The ctr coercion as the claim states it: an `"NN%"` string is divided
by 100 after stripping the trailing `%`; a value already given as a number
is preserved unchanged; otherwise plain numeric coercion. -/
def claimCoerceCtr (v : JSVal) : ℚ :=
  match v with
  | .num q => q
  | v =>
    let s := jsToString (jsOrVal v (.str "0"))
    match s.toList.reverse with
    | '%' :: body => orZero ((jsNumberOfStr (String.mk body.reverse)).map (fun q => q / 100))
    | _ => orZero (jsNumberOfStr s)

/-- The duplicates list as the claim states it: row `i` is reported iff it
is non-skipped and some strictly earlier row has the identical
`(query, page)` pair, and it is recorded with the index of the first such
row as `originalIndex`. -/
def dupAt (all : List Row) (i : Nat) : Option (Row × Nat) :=
  match all.get? i with
  | none => none
  | some r =>
    bif (r.query == "") || (r.page == "") then none
    else
      match (List.range i).find? (dupPred all r) with
      | some j => some (r, j)
      | none => none

def dupSpec (all : List Row) : List (Row × Nat) :=
  (List.range all.length).filterMap (dupAt all)

/-- A `RegExp` constructor model that compiles nothing (used where the
pattern branch is not exercised). -/
def compileNone : String → Option (List Instr) := fun _ => none

/-- A `RegExp` constructor model that knows the concrete custom pattern
`(a+)+$` of the spec's Scenario B. -/
def compileTable : String → Option (List Instr) :=
  fun p => if p = "(a+)+$" then some aPlusPlusEndProg else none

/-- Scenario B's 500-character adversarial input: 499 `a`s then a `b`. -/
def advQuery : String := String.mk (List.replicate 499 'a' ++ ['b'])

def cfgScenarioB : Config :=
  { brandTerms := "", useCustomRegex := true, customRegex := "(a+)+$",
    caseSensitive := true, detectLanguageCodes := false }

/-- Term-mode fixture for the avgPosition divisor bug: one branded row
(position 3) followed by one non-branded row (position 5). -/
def cfgTermBrand : Config :=
  { brandTerms := "brand", useCustomRegex := false, customRegex := "",
    caseSensitive := false, detectLanguageCodes := false }

def rowsAvgPos : List Row :=
  [ { query := "brand x", page := "https://s.com/a", clicks := .num 1,
      impressions := .num 10, ctr := .num 0, position := .num 3 },
    { query := "zzz", page := "https://s.com/b", clicks := .num 2,
      impressions := .num 20, ctr := .num 0, position := .num 5 } ]

/-- Case-sensitive term-mode fixture for the C5 counterexample. -/
def cfgCaseSens : Config :=
  { brandTerms := "Brand", useCustomRegex := false, customRegex := "",
    caseSensitive := true, detectLanguageCodes := false }

/-- Language-detection fixture: two pages differing only in the case of the
language segment. -/
def cfgLang : Config :=
  { brandTerms := "zz", useCustomRegex := false, customRegex := "",
    caseSensitive := false, detectLanguageCodes := true }

def rowsLangCase : List Row :=
  [ { query := "q1", page := "https://site.com/EN/x", clicks := .num 1,
      impressions := .num 1, ctr := .num 0, position := .num 1 },
    { query := "q2", page := "https://site.com/en/x", clicks := .num 1,
      impressions := .num 1, ctr := .num 0, position := .num 1 } ]

/-- A `pathData` entry whose name is a spreadsheet formula. -/
def formulaPathOut : PathOut :=
  { name := "=1+1", total := 1, branded := 0, nonBranded := 100, sortableTotal := 1 }

/-! ## Helper lemmas -/

theorem infixOf_nil_sub (l : List Char) : infixOf [] l = true := by
  cases l <;> simp [infixOf, List.isPrefixOf]

theorem sIncludes_empty_pattern (hay : String) : sIncludes hay "" = true := by
  have h : ("" : String).toList = [] := rfl
  simp [sIncludes, h, infixOf_nil_sub]

/-- No non-empty term is a substring of the empty query. -/
theorem any_term_empty_query (l : List String) :
    (l.any fun t => !(t == "") && sIncludes "" t) = false := by
  induction l with
  | nil => rfl
  | cons t ts ih =>
    simp only [List.any_cons, ih, Bool.or_false]
    cases t with
    | mk data => cases data <;> simp [sIncludes, infixOf]

/-! ## Claim C1 -/

/-- Claim C1 (code bug).  The incremental `avgPosition` update at line 210
divides by the *global* running row count `acc.summary.totalRows`, not by
the number of rows contributed to the bucket being updated: with one
branded row (position 3) followed by one non-branded row (position 5), the
non-branded bucket has contributed exactly one row (`nonBrandedRows = 1`)
whose running mean should be `5`, yet its `avgPosition` ends at `5/2`. -/
theorem claim1_avgPosition_divisor_bug :
    (processCsvResults compileNone 0 cfgTermBrand rowsAvgPos).map
        (fun r => (r.nonBranded.metrics.avgPosition, r.summary.nonBrandedRows))
      = some (5/2, 1) ∧ ((5 : ℚ)/2) ≠ 5 := by
  constructor
  · with_unfolding_all decide
  · norm_num

/-! ## Claim C2 -/

/-- Claim C2 (code bug).  On Scenario B's 500-character adversarial input
the chunk loop contributes only 5 steps (one per 100-character chunk), far
below the 1000-step ceiling, so the budget never aborts; instead the
backtracking engine catastrophically backtracks inside the chunk tests /
final test and is still running after 2000 modelled engine steps
(`isBranded` evaluates to `none`, not to `some false`).  The fail-safe
half of the claim does hold: a pattern whose compilation throws yields
`some false` for every query. -/
theorem claim2_step_budget_never_aborts :
    isBranded compileTable 2000 cfgScenarioB advQuery = none ∧
    chunkPhase 2000 aPlusPlusEndProg (chunks100 advQuery.toList) 0 = .cHung ∧
    (chunks100 advQuery.toList).length = 5 ∧
    (∀ q, isBranded compileNone 2000 cfgScenarioB q = some false) := by
  refine ⟨by with_unfolding_all decide, by with_unfolding_all decide,
    by with_unfolding_all decide, ?_⟩
  intro q
  by_cases hq : q == ""
  · simp [isBranded, hq]
  · simp [isBranded, hq, cfgScenarioB, compileNone]

/-! ## Claim C4 -/

/-- Claim C4 (code bug).  The CSV export formats every field as
`"${field}"` but never calls `sanitizeCSVCell`: a path named `=1+1` is
exported verbatim, with no neutralizing prefix character anywhere in the
emitted row, even though `sanitizeCSVCell` exists and would prefix an
apostrophe. -/
theorem claim4_export_bypasses_sanitizeCSVCell :
    exportUrlRow formulaPathOut = "\"=1+1\",\"1\",\"0\",\"100\",\"Homepage\"" ∧
    sanitizeCSVCell (.str "=1+1") = .str "'=1+1" ∧
    sIncludes (exportUrlRow formulaPathOut) "'" = false := by
  with_unfolding_all decide

/-! ## Claim C8 -/

/-- Claim C8 (confirmed).  `healthScore` is `max 0 (min 95 completeness)`,
hence always within `[0, 95]`, and the empty dataset scores exactly 0. -/
theorem claim8_healthScore_bounds :
    (∀ data : List Row,
        0 ≤ (analyzeDataQuality data).healthScore ∧
        (analyzeDataQuality data).healthScore ≤ 95) ∧
    (analyzeDataQuality []).healthScore = 0 := by
  constructor
  · intro data
    simp only [analyzeDataQuality]
    constructor
    · exact le_max_left 0 _
    · exact max_le (by norm_num) (min_le_left _ _)
  · with_unfolding_all decide

/-! ## Claim C9 -/

/-- Claim C9 (confirmed).  `detectLanguageOrPath` tests membership on the
lower-cased segment but returns the segment verbatim, so `/EN/x` and
`/en/x` yield langs `"EN"` and `"en"`, and the aggregation produces two
distinct `languageData` entries keyed `"EN"` and `"en"` (each with total
1) instead of one merged entry. -/
theorem claim9_language_case_preserved :
    detectLanguageOrPath "/EN/x" languageCodesList = ⟨"EN", "/x", "/x"⟩ ∧
    detectLanguageOrPath "/en/x" languageCodesList = ⟨"en", "/x", "/x"⟩ ∧
    (processCsvResults compileNone 0 cfgLang rowsLangCase).map
        (fun r => r.languageData.map (fun e => (e.code, e.language, e.total)))
      = some [("EN", "EN", 1), ("en", "En", 1)] := by
  with_unfolding_all decide

/-! ## Claim C10 -/

/-- Claim C10 (confirmed).  `sanitize` is total: `null` maps to `""`, but
`undefined` maps to the string `"undefined"` (the `typeof content ===
undefined` guard compares a string to the undefined *value* and never
matches, so `undefined` reaches `String(content)`); any other non-string
input is passed through `String(content)` with no entity escaping; only
strings receive the five-entity escaping. -/
theorem claim10_sanitize_totality :
    sanitize .vnull = "" ∧ sanitize .vundef = "undefined" ∧
    (∀ q, sanitize (.num q) = jsToString (.num q)) ∧
    (∀ b, sanitize (.bool b) = jsToString (.bool b)) ∧
    (∀ s, sanitize (.str s) = escape5 s) ∧
    sanitize (.str "<a>&\"'") = "&lt;a&gt;&amp;&quot;&#39;" := by
  refine ⟨rfl, rfl, fun q => rfl, fun b => rfl, fun s => rfl,
    by with_unfolding_all decide⟩

/-! ## Claim C3 -/

/-- Claim C3, counterexample.  The claim's classifier sends the non-empty,
rule-free url `"xyz"` to `Other`; the code sends it to `Homepage`, because
the `Homepage` rule's `''` pattern is a substring of every url. -/
theorem claim3_other_unreachable_cex :
    inferContentType "xyz" = "Homepage" ∧ claimContentType "xyz" = "Other" ∧
    ("Homepage" : String) ≠ "Other" := by
  with_unfolding_all decide

/-- Claim C3, amended.  The classifier evaluates the rules in fixed
priority order against the lower-cased url with first match winning, and an
empty url yields `Unknown`; but the `Homepage` rule (patterns `'/'` and
`''`) matches every non-empty url, so a url matching none of the first five
rules yields `Homepage`, never `Other`. -/
theorem claim3_contentType_amended :
    ∀ url, inferContentType url = claimContentTypeAmended url := by
  intro url
  unfold inferContentType claimContentTypeAmended
  cases hurl : (url == "") with
  | true => rfl
  | false =>
    simp only [cond_false, contentRules, List.find?_cons, List.find?_nil,
      List.any_cons, List.any_nil, Bool.or_false, Bool.or_assoc,
      sIncludes_empty_pattern, Bool.or_true]
    generalize sToLower url = n
    generalize (sIncludes n "/blog" || (sIncludes n "/article" || sIncludes n "/news")) = c1
    generalize (sIncludes n "/product" || (sIncludes n "/pricing" || sIncludes n "/shop")) = c2
    generalize (sIncludes n "/support" || (sIncludes n "/help" || sIncludes n "/faq")) = c3
    generalize (sIncludes n "/about" || (sIncludes n "/company" || sIncludes n "/team")) = c4
    generalize (sIncludes n "/login" || (sIncludes n "/signin" || sIncludes n "/account")) = c5
    cases c1 <;> cases c2 <;> cases c3 <;> cases c4 <;> cases c5 <;> rfl

/-! ## Claim C5 -/

/-- Claim C5, counterexample.  With `caseSensitive` set, `brandTerms =
"Brand"` and query `"brand shoes"`: the code lower-cases the terms
unconditionally and matches (`some true`), while the claim's matching —
where both sides keep their original case — does not match. -/
theorem claim5_caseSensitive_terms_cex :
    isBranded compileNone 0 cfgCaseSens "brand shoes" = some true ∧
    claimTermMatch cfgCaseSens "brand shoes" = false := by
  with_unfolding_all decide

/-- Claim C5, amended.  In term mode `isBranded` splits the *always
lower-cased* `brandTerms` on commas and trims each term; only the query
keeps its original case when `caseSensitive` is set; the result is true iff
some non-empty term is a substring of the (conditionally lower-cased)
query. -/
theorem claim5_term_mode_amended (compile : String → Option (List Instr)) (fuelE : Nat)
    (cfg : Config) (q : String) (h : cfg.useCustomRegex = false) :
    isBranded compile fuelE cfg q = some (claimTermMatchAmended cfg q) := by
  unfold isBranded claimTermMatchAmended
  rw [h]
  simp only [Bool.false_and, cond_false]
  by_cases hq : q == ""
  · have hq' : q = "" := by simpa using hq
    subst hq'
    have hcase : (bif cfg.caseSensitive then "" else sToLower "") = "" := by
      cases cfg.caseSensitive
      · decide
      · rfl
    rw [hcase, any_term_empty_query]
    rfl
  · simp [hq]

/-- Witness for `claim5_term_mode_amended` at a concrete term-mode config
and query. -/
theorem claim5_term_mode_amended_witness :
    isBranded compileNone 0 cfgTermBrand "Brand x"
      = some (claimTermMatchAmended cfgTermBrand "Brand x") :=
  claim5_term_mode_amended compileNone 0 cfgTermBrand "Brand x" rfl

/-! ## Claim C6 -/

/-- Claim C6, counterexample.  A ctr given as the plain 0–1 value `"0.5"`
(no `%` present) is nevertheless divided by 100 by the code (yielding
`1/200`), while the claim preserves it unchanged (`1/2`). -/
theorem claim6_ctr_always_divided_cex :
    coerceCtr (.str "0.5") = 1/200 ∧ claimCoerceCtr (.str "0.5") = 1/2 ∧
    ((1 : ℚ)/200) ≠ 1/2 := by
  with_unfolding_all decide

/-- Claim C6, amended.  `clicks`/`position` are coerced numerically with
non-numeric strings (parse failure) becoming 0; `impressions` has all
commas stripped before numeric coercion; `ctr` has its *first* `%`
occurrence stripped and is then *always* divided by 100 (an `"NN%"` value
becomes `NN/100`, but so is a plain numeric ctr divided). -/
theorem claim6_coercions_amended (s : String) (q : ℚ) :
    coerceClicks (.num q) = q ∧ coercePosition (.num q) = q ∧
    (jsNumberOfStr s = none → coerceClicks (.str s) = 0 ∧ coercePosition (.str s) = 0) ∧
    ((s == "") = false →
      coerceImpressions (.str s)
        = orZero (jsNumberOfStr (String.mk (s.toList.filter (fun c => c ≠ ','))))) ∧
    ((s == "") = false →
      coerceCtr (.str s)
        = orZero ((jsNumberOfStr (sRemoveFirst "%" s)).map (fun x => x / 100))) ∧
    coerceCtr (.str "10%") = 1/10 := by
  refine ⟨rfl, rfl, ?_, ?_, ?_, by with_unfolding_all decide⟩
  · intro h
    constructor <;> simp [coerceClicks, coercePosition, jsNumber, h, orZero]
  · intro hs
    simp [coerceImpressions, jsOrVal, jsTruthy, hs, jsToString]
  · intro hs
    simp [coerceCtr, jsOrVal, jsTruthy, hs, jsToString]

/-- Witness for `claim6_coercions_amended` at concrete inputs
(`"1,234"` is non-numeric before comma-stripping; `"12%"` carries a `%`). -/
theorem claim6_coercions_amended_witness :
    coerceClicks (.num 7) = 7 ∧
    coerceClicks (.str "1,234") = 0 ∧
    coerceImpressions (.str "1,234")
      = orZero (jsNumberOfStr (String.mk ("1,234".toList.filter (fun c => c ≠ ',')))) ∧
    coerceCtr (.str "12%")
      = orZero ((jsNumberOfStr (sRemoveFirst "%" "12%")).map (fun x => x / 100)) :=
  ⟨(claim6_coercions_amended "1,234" 7).1,
   ((claim6_coercions_amended "1,234" 7).2.2.1 (by decide)).1,
   (claim6_coercions_amended "1,234" 7).2.2.2.1 (by decide),
   (claim6_coercions_amended "12%" 7).2.2.2.2.1 (by decide)⟩

/-! ## Claim C7 -/

theorem stepRow_duplicates (cfg : Config) (all : List Row) (i : Nat) (r : Row) (b : Bool)
    (acc : Acc) :
    (stepRow cfg all i r b acc).duplicates =
      acc.duplicates ++
        (match (List.range i).find? (dupPred all r) with
         | some j => [(r, j)]
         | none => []) := rfl

/-- Loop invariant: the duplicates accumulated over the rows from index `i`
on are exactly the `dupAt` entries of those indices. -/
theorem aggLoop_duplicates (compile : String → Option (List Instr)) (fuelE : Nat) (cfg : Config)
    (all : List Row) :
    ∀ (rs : List Row) (i : Nat) (acc acc' : Acc), all.drop i = rs →
      aggLoop compile fuelE cfg all rs i acc = some acc' →
      acc'.duplicates = acc.duplicates ++ (List.range' i rs.length).filterMap (dupAt all) := by
  intro rs
  induction rs with
  | nil =>
    intro i acc acc' _ hrun
    simp only [aggLoop] at hrun
    cases hrun
    simp [List.range']
  | cons r rs ih =>
    intro i acc acc' hdrop hrun
    have hget : all.get? i = some r := by
      have h := List.head?_drop all i
      rw [hdrop] at h
      simpa using h.symm
    have hdrop' : all.drop (i + 1) = rs := by
      rw [← List.drop_drop, hdrop]
      rfl
    simp only [aggLoop] at hrun
    cases hskip : ((r.query == "") || (r.page == "")) with
    | true =>
      rw [hskip, cond_true] at hrun
      have h := ih (i + 1) acc acc' hdrop' hrun
      rw [h]
      have hd : dupAt all i = none := by
        unfold dupAt
        rw [hget]
        simp [hskip]
      simp only [List.length_cons]
      rw [List.range'_succ]
      simp [List.filterMap_cons, hd]
    | false =>
      rw [hskip, cond_false] at hrun
      cases hbr : isBranded compile fuelE cfg r.query with
      | none => rw [hbr] at hrun; cases hrun
      | some b =>
        rw [hbr] at hrun
        have h := ih (i + 1) (stepRow cfg all i r b acc) acc' hdrop' hrun
        rw [h, stepRow_duplicates]
        have hd : dupAt all i =
            (match (List.range i).find? (dupPred all r) with
             | some j => some (r, j)
             | none => none) := by
          unfold dupAt
          rw [hget]
          simp [hskip]
        simp only [List.length_cons]
        rw [List.range'_succ]
        cases hf : (List.range i).find? (dupPred all r) with
        | some j => simp [List.filterMap_cons, hd, hf, List.append_assoc]
        | none => simp [List.filterMap_cons, hd, hf]

/-- Claim C7 (confirmed).  Whenever the pass completes, its `duplicates`
output is exactly `dupSpec`: a non-skipped row is reported iff some
strictly earlier row of the normalized data has the identical
`(query, page)` pair, and each entry carries as `originalIndex` the index
of the first (earliest) occurrence of that pair. -/
theorem claim7_duplicates_spec (compile : String → Option (List Instr)) (fuelE : Nat)
    (cfg : Config) (rows : List Row) :
    (processCsvResults compile fuelE cfg rows).map Result.duplicates
      = (processCsvResults compile fuelE cfg rows).map (fun _ => dupSpec rows) := by
  unfold processCsvResults
  cases hrun : aggLoop compile fuelE cfg rows rows 0 initAcc with
  | none => rfl
  | some acc' =>
    simp only [Option.map_some', Option.some.injEq]
    have h := aggLoop_duplicates compile fuelE cfg rows rows 0 initAcc acc' (by simp) hrun
    have hfin : (finish rows acc').duplicates = acc'.duplicates := rfl
    rw [hfin, h]
    unfold dupSpec
    rw [List.range_eq_range']
    simp [initAcc]

end BrandTraffic
